import Mathlib

/-!
# go-wormhole-server: a shallow embedding of the rendezvous and transit core

This file embeds the durable-store operations of the rendezvous mailbox
service (`relay` package: `Mailbox`, `Application`, `Client`) and the
transit matcher (`transit` package: `Client.processToken`) as executable
Lean functions, and proves or refutes the specified properties.

The durable SQLite store is modelled as lists of rows, one list per table;
SQL statements are modelled by their evident meaning on those lists
(`SELECT ... WHERE` with a single row is `List.find?`, `COUNT` is
`List.countP`, `INSERT` appends, `UPDATE ... WHERE` maps, `DELETE ... WHERE`
filters).  Timestamps and random draws are passed in explicitly.
-/

namespace Wormhole

/-- Row of the `mailboxes` table: `(id PK, app_id, updated, for_nameplate)`. -/
structure MailboxRow where
  id : String
  appID : String
  updated : Int
  forNameplate : Bool
  deriving DecidableEq

/-- Row of the `mailbox_sides` table:
`(mailbox_id, opened, side, added, mood)`. -/
structure MailboxSideRow where
  mailboxID : String
  opened : Bool
  side : String
  added : Int
  mood : String
  deriving DecidableEq

/-- Row of the `messages` table:
`(id, app_id, mailbox_id, side, phase, body, server_rx)`. -/
structure MessageRow where
  id : String
  appID : String
  mailboxID : String
  side : String
  phase : String
  body : String
  serverRX : Int
  deriving DecidableEq

/-- Row of the `nameplates` table:
`(id auto PK, app_id, name, mailbox_id, request_id)`. -/
structure NameplateRow where
  id : Nat
  appID : String
  name : String
  mailboxID : String
  requestID : String
  deriving DecidableEq

/-- Row of the `nameplate_sides` table:
`(nameplate_id, claimed, side, added)`. -/
structure NameplateSideRow where
  nameplateID : Nat
  claimed : Bool
  side : String
  added : Int
  deriving DecidableEq

/-- The durable store: one list of rows per table.  `nextNameplateID`
models the `SERIAL` auto-assigned primary key of `nameplates`. -/
structure Store where
  mailboxes : List MailboxRow
  mailboxSides : List MailboxSideRow
  messages : List MessageRow
  nameplates : List NameplateRow
  nameplateSides : List NameplateSideRow
  nextNameplateID : Nat
  deriving DecidableEq

/-- A freshly created, empty database. -/
def Store.empty : Store := ⟨[], [], [], [], [], 1⟩

/-- The protocol-level errors raised by the relay core (package `errs`),
plus `internal` for masked internal failures. -/
inductive WErr where
  | bindFirst
  | bound
  | bindAppID
  | bindSide
  | alreadyAllocated
  | alreadyClaimed
  | claimNameplate
  | reclaimNameplate
  | nameplateCrowded
  | alreadyReleased
  | releaseNameplate
  | releaseNotClaimed
  | alreadyOpened
  | openMailbox
  | openFirst
  | addPhase
  | addBody
  | alreadyClosed
  | closeMailbox
  | closeOpenFirst
  | mailboxCrowded
  | noAvailableNameplates
  | internal
  deriving DecidableEq

/-- In-memory handle of a mailbox (Go struct `Mailbox`): the mailbox id
and the owning application's id.  The in-memory listener table is not part
of the durable store and is modelled at the session level. -/
structure Mailbox where
  ID : String
  AppID : String
  deriving DecidableEq

/-- `Mailbox.Touch`: `UPDATE mailboxes SET updated=now WHERE id=?`. -/
def Mailbox.Touch (m : Mailbox) (st : Store) (now : Int) : Store :=
  { st with mailboxes :=
      st.mailboxes.map fun r => if r.id == m.ID then { r with updated := now } else r }

/-- `Mailbox.Open`: look up `mailbox_sides(mailbox_id, side)`; when no row
exists insert one with `opened=true`; in every case `Touch`. -/
def Mailbox.Open (m : Mailbox) (st : Store) (side : String) (now : Int) : Store :=
  let st1 :=
    match st.mailboxSides.find? (fun r => r.mailboxID == m.ID && r.side == side) with
    | some _ => st
    | none =>
        { st with mailboxSides :=
            st.mailboxSides ++ [{ mailboxID := m.ID, opened := true, side := side,
                                  added := now, mood := "" }] }
  m.Touch st1 now

/-- `Mailbox.Delete`: delete this mailbox's `messages`, `mailbox_sides`
and `mailboxes` rows.  (`RemoveAllListeners` acts only on the in-memory
listener table, which is not part of the store.) -/
def Mailbox.Delete (m : Mailbox) (st : Store) : Store :=
  { st with
      messages := st.messages.filter (fun r => !(r.mailboxID == m.ID)),
      mailboxSides := st.mailboxSides.filter (fun r => !(r.mailboxID == m.ID)),
      mailboxes := st.mailboxes.filter (fun r => !(r.id == m.ID)) }

/-- `Mailbox.Close`: bail out when the `mailboxes` row or this side's
`mailbox_sides` row is missing; otherwise set `opened=false, mood` on this
side, then run the source's check
`SELECT COUNT(*)>0 FROM mailbox_sides WHERE mailbox_id=?` — the query
counts every side row of the mailbox, with no `opened=true` filter — and
delete the mailbox only when that count is zero. -/
def Mailbox.Close (m : Mailbox) (st : Store) (side mood : String) : Store :=
  match st.mailboxes.find? (fun r => r.appID == m.AppID && r.id == m.ID) with
  | none => st
  | some _ =>
    match st.mailboxSides.find? (fun r => r.mailboxID == m.ID && r.side == side) with
    | none => st
    | some _ =>
      let st1 : Store :=
        { st with mailboxSides := st.mailboxSides.map fun r =>
            if r.mailboxID == m.ID && r.side == side then
              { r with opened := false, mood := mood }
            else r }
      if 0 < st1.mailboxSides.countP (fun r => r.mailboxID == m.ID) then st1
      else m.Delete st1

/-- `Mailbox.AddMessage`: insert the message row, then broadcast (handled
at the session level), then `Touch`. -/
def Mailbox.AddMessage (m : Mailbox) (st : Store) (msg : MessageRow) (now : Int) : Store :=
  m.Touch { st with messages := st.messages ++ [msg] } now

/-- In-memory application handle (Go struct `Application`); the
`Mailboxes` map only caches listener tables and is not part of the store. -/
structure Application where
  ID : String
  deriving DecidableEq

/-- `Application.GetNameplateIDs`:
`SELECT DISTINCT name FROM nameplates WHERE app_id=?`. -/
def Application.GetNameplateIDs (a : Application) (st : Store) : List String :=
  ((st.nameplates.filter (fun r => r.appID == a.ID)).map (fun r => r.name)).dedup

/-- `Application.AddMailbox`: insert a `mailboxes` row for `(app_id, id)`
unless one already exists.  The `side` argument is unused, as in the
source. -/
def Application.AddMailbox (a : Application) (st : Store) (id : String)
    (forNameplate : Bool) (side : String) (now : Int) : Store :=
  if 0 < st.mailboxes.countP (fun r => r.appID == a.ID && r.id == id) then st
  else
    { st with mailboxes :=
        st.mailboxes ++ [{ id := id, appID := a.ID, updated := now,
                           forNameplate := forNameplate }] }

/-- `Application.OpenMailbox`: ensure the mailbox row exists
(`AddMailbox` with `for_nameplate=false`), call `Mailbox.Open side`, then
count all `mailbox_sides` rows of the mailbox and fail with
`MailboxCrowded` when the count exceeds 2.  The side row inserted by
`Open` is kept even when the call fails as crowded, as in the source. -/
def Application.OpenMailbox (a : Application) (st : Store) (id side : String)
    (now : Int) : Store × Option WErr :=
  let st1 := a.AddMailbox st id false side now
  let mbox : Mailbox := { ID := id, AppID := a.ID }
  let st2 := mbox.Open st1 side now
  if 2 < st2.mailboxSides.countP (fun r => r.mailboxID == id) then
    (st2, some WErr.mailboxCrowded)
  else (st2, none)

/-- `Application.ClaimNameplate name side`: find or create the nameplate
row (creating also a fresh mailbox, whose id is the explicit `freshMb`
argument standing for `generateMailboxID()`); find or insert the
`nameplate_sides(nameplate_id, side)` row; fail with `ReclaimNameplate`
when that row already existed with `claimed=true` (when the row was
absent the Go struct keeps its zero value, so the check sees `false`);
open the mailbox; fail with `NameplateCrowded` when more than two side
rows exist.  The store reflects every insert performed before a failure,
as in the source. -/
def Application.ClaimNameplate (a : Application) (st : Store) (name side freshMb : String)
    (now : Int) : Store × Except WErr String :=
  let found := st.nameplates.find? (fun r => r.appID == a.ID && r.name == name)
  let created : Store × Nat × String :=
    match found with
    | some np => (st, np.id, np.mailboxID)
    | none =>
        let mbid := freshMb
        let stm := a.AddMailbox st mbid true side now
        let npid := stm.nextNameplateID
        ({ stm with
            nameplates := stm.nameplates ++
              [{ id := npid, appID := a.ID, name := name, mailboxID := mbid,
                 requestID := "" }],
            nextNameplateID := npid + 1 },
         npid, mbid)
  let st1 := created.1
  let npid := created.2.1
  let mbid := created.2.2
  let sideRow := st1.nameplateSides.find? (fun r => r.nameplateID == npid && r.side == side)
  let st2 : Store :=
    match sideRow with
    | some _ => st1
    | none =>
        { st1 with nameplateSides :=
            st1.nameplateSides ++ [{ nameplateID := npid, claimed := true, side := side,
                                     added := now }] }
  let npsClaimed : Bool :=
    match sideRow with
    | some r => r.claimed
    | none => false
  if npsClaimed then (st2, Except.error WErr.reclaimNameplate)
  else
    match a.OpenMailbox st2 mbid side now with
    | (st3, some e) => (st3, Except.error e)
    | (st3, none) =>
        if 2 < st3.nameplateSides.countP (fun r => r.nameplateID == npid) then
          (st3, Except.error WErr.nameplateCrowded)
        else (st3, Except.ok mbid)

/-- `Application.ReleaseNameplate name side`: succeed silently when the
nameplate or this side's row is missing; otherwise set `claimed=false` on
this side; when no `claimed=true` row remains, delete every
`nameplate_sides` row of the nameplate and the nameplate row itself. -/
def Application.ReleaseNameplate (a : Application) (st : Store) (name side : String) : Store :=
  match st.nameplates.find? (fun r => r.appID == a.ID && r.name == name) with
  | none => st
  | some np =>
    match st.nameplateSides.find? (fun r => r.nameplateID == np.id && r.side == side) with
    | none => st
    | some _ =>
      let st1 : Store :=
        { st with nameplateSides := st.nameplateSides.map fun r =>
            if r.nameplateID == np.id && r.side == side then { r with claimed := false }
            else r }
      if 0 < st1.nameplateSides.countP (fun r => r.nameplateID == np.id && r.claimed) then st1
      else
        { st1 with
            nameplateSides := st1.nameplateSides.filter (fun r => !(r.nameplateID == np.id)),
            nameplates := st1.nameplates.filter (fun r => !(r.id == np.id)) }

/-- Failure modes of `Application.FindNameplate`: the explicit
`NoAvailableNameplates` error, and a Go runtime panic raised by
`rand.Intn` when its argument is not positive. -/
inductive FindErr where
  | panicked
  | noAvailableNameplates
  deriving DecidableEq

/-- `rand.Intn n` for one pseudorandom draw `rand`: Go panics when
`n ≤ 0`, modelled as `none`; otherwise some value in `[0, n)`. -/
def Intn (rand : Nat) (n : Int) : Option Int :=
  if n ≤ 0 then none else some ((rand : Int) % n)

/-- `randRange(l, h) = rand.Intn(h-l) + l` (source line
`return rand.Intn(h-l) + l`). -/
def randRange (rand : Nat) (l h : Int) : Option Int :=
  (Intn rand (h - l)).map (· + l)

/-- The available candidates of one digit width: the decimal strings
`low, low+1, …, high-1` that are not in the claimed list (the source
builds `avail` by scanning `claimed` with a `taken` flag). -/
def availWidth (claimed : List String) (low high : Nat) : List String :=
  ((List.range (high - low)).map (fun j => toString (low + j))).filter
    (fun id => !(claimed.contains id))

/-- `avail[randRange(0, len(avail))]`: drawing an index into the
available list; an empty range would panic. -/
def pickAvail (avail : List String) (rand : Nat) : Except FindErr String :=
  match randRange rand 0 (Int.ofNat avail.length) with
  | none => Except.error FindErr.panicked
  | some ix => Except.ok (avail.getD ix.toNat "")

/-- The fallback loop of `FindNameplate`: up to `fuel` (source: 1000)
attempts at `strconv.Itoa(randRange(1000, 1000^1000))` — `^` is Go's
bitwise XOR, so the upper bound is `Nat.xor 1000 1000` — returning the
first attempt not yet claimed. -/
def fallbackAttempts (claimed : List String) (rands : List Nat) :
    Nat → Except FindErr String
  | 0 => Except.error FindErr.noAvailableNameplates
  | n + 1 =>
    match randRange (rands.headD 0) 1000 (Int.ofNat (Nat.xor 1000 1000)) with
    | none => Except.error FindErr.panicked
    | some v =>
        let id := toString v
        if claimed.contains id then fallbackAttempts claimed rands.tail n
        else Except.ok id

/-- `Application.FindNameplate`: for widths 1, 2, 3 (ranges
`[10^(w-1), 10^w)`), pick uniformly from the unclaimed names of the first
non-exhausted width; otherwise run the fallback loop. -/
def Application.FindNameplate (a : Application) (st : Store) (r0 : Nat)
    (rands : List Nat) : Except FindErr String :=
  if 0 < (availWidth (a.GetNameplateIDs st) 1 10).length then
    pickAvail (availWidth (a.GetNameplateIDs st) 1 10) r0
  else if 0 < (availWidth (a.GetNameplateIDs st) 10 100).length then
    pickAvail (availWidth (a.GetNameplateIDs st) 10 100) r0
  else if 0 < (availWidth (a.GetNameplateIDs st) 100 1000).length then
    pickAvail (availWidth (a.GetNameplateIDs st) 100 1000) r0
  else fallbackAttempts (a.GetNameplateIDs st) rands 1000

/-- A Go panic escapes `AllocateNameplate` rather than being returned; the
session model maps it to the masked `internal` error, a distinction no
claim depends on. -/
def FindErr.toWErr : FindErr → WErr
  | FindErr.panicked => WErr.internal
  | FindErr.noAvailableNameplates => WErr.noAvailableNameplates

/-- `Application.AllocateNameplate side`: `FindNameplate` then
`ClaimNameplate(name, side)`; returns the nameplate name. -/
def Application.AllocateNameplate (a : Application) (st : Store) (side freshMb : String)
    (r0 : Nat) (rands : List Nat) (now : Int) : Store × Except WErr String :=
  match a.FindNameplate st r0 rands with
  | Except.error e => (st, Except.error e.toWErr)
  | Except.ok name =>
    match a.ClaimNameplate st name side freshMb now with
    | (st1, Except.error e) => (st1, Except.error e)
    | (st1, Except.ok _) => (st1, Except.ok name)

/-- The per-WebSocket session state (Go struct `Client` in
`relay/client.go`).  `App` holds the bound application id (`nil` before
`bind`); `Mailbox` the bound mailbox id.  `listenerHandle` is the handle
returned by `AddListener`; in this single-session model the first handle,
1, is used.  `Listening` mirrors the source, which never sets it to
`true`. -/
structure Client where
  App : Option String
  Side : String
  Nameplate : String
  Mailbox : Option String
  listenerHandle : Nat
  Allocated : Bool
  Claimed : Bool
  Released : Bool
  Listening : Bool
  Closed : Bool
  deriving DecidableEq

/-- A freshly connected, unbound session. -/
def Client.fresh : Client :=
  { App := none, Side := "", Nameplate := "", Mailbox := none, listenerHandle := 0,
    Allocated := false, Claimed := false, Released := false, Listening := false,
    Closed := false }

/-- `Client.IsBound`: the session has an application and a side. -/
def Client.IsBound (c : Client) : Bool :=
  c.App.isSome && c.Side != ""

/-- Server-to-client frames enqueued on the session's outbound queue. -/
inductive OutMsg where
  | welcome
  | ack (id : String)
  | pong (v : Int)
  | nameplates (ids : List String)
  | allocated (nameplate : String)
  | claimed (mailbox : String)
  | released
  | closed
  | message (side phase body id : String)
  | error (e : WErr)
  deriving DecidableEq

/-- A successfully parsed client frame (`msg.ParseClient` succeeded);
each carries the message `id` echoed in the `ack`.  The `open` and
`close` type names are Lean keywords, hence `openMbox`/`closeMbox`. -/
inductive Frame where
  | ping (v : Int) (id : String)
  | bind (appID side : String) (id : String)
  | list (id : String)
  | allocate (id : String)
  | claim (nameplate : String) (id : String)
  | release (nameplate : String) (id : String)
  | openMbox (mailbox : String) (id : String)
  | add (phase body msgID : String) (id : String)
  | closeMbox (mailbox mood : String) (id : String)
  deriving DecidableEq

/-- The `id` field of a frame, echoed by the `ack`. -/
def Frame.frameID : Frame → String
  | Frame.ping _ id => id
  | Frame.bind _ _ id => id
  | Frame.list id => id
  | Frame.allocate id => id
  | Frame.claim _ id => id
  | Frame.release _ id => id
  | Frame.openMbox _ id => id
  | Frame.add _ _ _ id => id
  | Frame.closeMbox _ _ id => id

/-- Whether the frame's type is `ping` or `bind`, the two types allowed
before a `bind` succeeds. -/
def Frame.isPingOrBind : Frame → Bool
  | Frame.ping _ _ => true
  | Frame.bind _ _ _ => true
  | _ => false

/-- External inputs of one dispatch: the clock, the fresh mailbox id
`generateMailboxID()` would produce, the pseudorandom draws, and the
`allow_list` configuration flag. -/
structure Env where
  now : Int
  freshMb : String
  r0 : Nat
  rands : List Nat
  allowList : Bool
  deriving DecidableEq

/-- Result of one message handler: updated session, updated store,
enqueued responses, and the error (turned into an `error` frame). -/
def HRes := Client × Store × List OutMsg × Option WErr

/-- The session's application handle (`c.App`); handlers run only when
bound. -/
def Client.app (c : Client) : Application := { ID := c.App.getD "" }

/-- `HandlePing`: respond `pong` with the echoed value. -/
def Client.HandlePing (c : Client) (st : Store) (v : Int) : HRes :=
  (c, st, [OutMsg.pong v], none)

/-- `HandleBind`: reject a second bind or empty fields, else record
`app_id` and `side`. -/
def Client.HandleBind (c : Client) (st : Store) (appID side : String) : HRes :=
  if c.IsBound then (c, st, [], some WErr.bound)
  else if appID == "" then (c, st, [], some WErr.bindAppID)
  else if side == "" then (c, st, [], some WErr.bindSide)
  else ({ c with App := some appID, Side := side }, st, [], none)

/-- `HandleList`: when `allow_list` is off reply with an empty list, else
with the application's nameplate ids. -/
def Client.HandleList (c : Client) (st : Store) (env : Env) : HRes :=
  if !env.allowList then (c, st, [OutMsg.nameplates []], none)
  else (c, st, [OutMsg.nameplates (c.app.GetNameplateIDs st)], none)

/-- `HandleAllocate`: once per session; `AllocateNameplate(c.Side)` and
respond `allocated`. -/
def Client.HandleAllocate (c : Client) (st : Store) (env : Env) : HRes :=
  if c.Allocated then (c, st, [], some WErr.alreadyAllocated)
  else
    match c.app.AllocateNameplate st c.Side env.freshMb env.r0 env.rands env.now with
    | (st1, Except.error e) => (c, st1, [], some e)
    | (st1, Except.ok name) =>
        ({ c with Allocated := true }, st1, [OutMsg.allocated name], none)

/-- `HandleClaim`: once per session; non-empty nameplate; then the source
calls `c.App.ClaimNameplate(m.Nameplate, m.Nameplate)` — the nameplate
string is passed as the `side` argument, not `c.Side`. -/
def Client.HandleClaim (c : Client) (st : Store) (env : Env) (nameplate : String) : HRes :=
  if c.Claimed then (c, st, [], some WErr.alreadyClaimed)
  else if nameplate == "" then (c, st, [], some WErr.claimNameplate)
  else
    match c.app.ClaimNameplate st nameplate nameplate env.freshMb env.now with
    | (st1, Except.error e) => (c, st1, [], some e)
    | (st1, Except.ok mbid) =>
        ({ c with Claimed := true, Nameplate := nameplate }, st1,
         [OutMsg.claimed mbid], none)

/-- `HandleRelease`: once per session; a supplied nameplate must match the
session's; `ReleaseNameplate(c.Nameplate, c.Side)` then respond
`released`. -/
def Client.HandleRelease (c : Client) (st : Store) (nameplate : String) : HRes :=
  if c.Released then (c, st, [], some WErr.alreadyReleased)
  else if nameplate != "" && nameplate != c.Nameplate then
    (c, st, [], some WErr.releaseNameplate)
  else if nameplate == "" && c.Nameplate == "" then
    (c, st, [], some WErr.releaseNotClaimed)
  else
    let st1 := c.app.ReleaseNameplate st c.Nameplate c.Side
    ({ c with Released := true }, st1, [OutMsg.released], none)

/-- `HandleOpen`: at most one mailbox per session; non-empty id;
`OpenMailbox(m.Mailbox, c.Side)` and register the session's listener
(handle 1). -/
def Client.HandleOpen (c : Client) (st : Store) (env : Env) (mailbox : String) : HRes :=
  if c.Mailbox.isSome then (c, st, [], some WErr.alreadyOpened)
  else if mailbox == "" then (c, st, [], some WErr.openMailbox)
  else
    match c.app.OpenMailbox st mailbox c.Side env.now with
    | (st1, some e) => (c, st1, [], some e)
    | (st1, none) =>
        ({ c with Mailbox := some mailbox, listenerHandle := 1 }, st1, [], none)

/-- `HandleAdd`: requires an open mailbox and non-empty phase and body;
`AddMessage` appends the durable row and broadcasts.  The broadcast to
this session's own listener (registered in `HandleOpen`) is the `message`
echo on its own queue. -/
def Client.HandleAdd (c : Client) (st : Store) (env : Env)
    (phase body msgID : String) : HRes :=
  match c.Mailbox with
  | none => (c, st, [], some WErr.openFirst)
  | some mb =>
    if phase == "" then (c, st, [], some WErr.addPhase)
    else if body == "" then (c, st, [], some WErr.addBody)
    else
      let mmsg : MessageRow :=
        { id := msgID, appID := c.app.ID, mailboxID := mb, side := c.Side,
          phase := phase, body := body, serverRX := env.now }
      let st1 := (Mailbox.mk mb c.app.ID).AddMessage st mmsg env.now
      let echo :=
        if 0 < c.listenerHandle then [OutMsg.message c.Side phase body msgID] else []
      (c, st1, echo, none)

/-- `HandleClose`: once per session; a supplied mailbox id must match the
bound one when a mailbox is bound; with no bound mailbox the handler first
calls `OpenMailbox(m.Mailbox, c.Side)` — creating durable rows — and then
`Mailbox.Close(c.Side, m.Mood)`; finally it detaches, clears the bound
mailbox and responds `closed`. -/
def Client.HandleClose (c : Client) (st : Store) (env : Env) (mailbox mood : String) : HRes :=
  if c.Closed then (c, st, [], some WErr.alreadyClosed)
  else if mailbox != "" && (match c.Mailbox with
      | some mb => mb != mailbox
      | none => false) then
    (c, st, [], some WErr.closeMailbox)
  else if mailbox == "" && c.Mailbox.isNone then
    (c, st, [], some WErr.closeOpenFirst)
  else
    let opened : Store × Option WErr × Option String :=
      match c.Mailbox with
      | some mb => (st, none, some mb)
      | none =>
        match c.app.OpenMailbox st mailbox c.Side env.now with
        | (st1, some e) => (st1, some e, none)
        | (st1, none) => (st1, none, some mailbox)
    match opened with
    | (st1, some e, _) => (c, st1, [], some e)
    | (st1, none, mb?) =>
      let mb := mb?.getD ""
      let st2 := (Mailbox.mk mb c.app.ID).Close st1 c.Side mood
      ({ c with Mailbox := none, Closed := true, Listening := false },
       st2, [OutMsg.closed], none)

/-- Everything `OnMessage` does after enqueuing the `ack`: the bind-first
check (with the source's unreachable internal-error branch, which does not
return), then dispatch to the per-type handler, then the conversion of a
handler error into an `error` frame. -/
def Client.afterAck (c : Client) (st : Store) (env : Env) (f : Frame) :
    Client × Store × List OutMsg :=
  if !c.IsBound && !f.isPingOrBind then (c, st, [OutMsg.error WErr.bindFirst])
  else
    let pre : List OutMsg :=
      if c.IsBound && (c.App.isNone || c.Side == "") then [OutMsg.error WErr.internal]
      else []
    let res : HRes :=
      match f with
      | Frame.ping v _ => c.HandlePing st v
      | Frame.bind appID side _ => c.HandleBind st appID side
      | Frame.list _ => c.HandleList st env
      | Frame.allocate _ => c.HandleAllocate st env
      | Frame.claim nameplate _ => c.HandleClaim st env nameplate
      | Frame.release nameplate _ => c.HandleRelease st nameplate
      | Frame.openMbox mailbox _ => c.HandleOpen st env mailbox
      | Frame.add phase body msgID _ => c.HandleAdd st env phase body msgID
      | Frame.closeMbox mailbox mood _ => c.HandleClose st env mailbox mood
    let errFrames : List OutMsg :=
      match res.2.2.2 with
      | some e => [OutMsg.error e]
      | none => []
    (res.1, res.2.1, pre ++ res.2.2.1 ++ errFrames)

/-- `Client.OnMessage` on a frame that parsed: enqueue the `ack` carrying
the frame's `id` first, then run the bind check and dispatch
(`afterAck`). -/
def Client.OnMessage (c : Client) (st : Store) (env : Env) (f : Frame) :
    Client × Store × List OutMsg :=
  let step := c.afterAck st env f
  (step.1, step.2.1, OutMsg.ack f.frameID :: step.2.2)

/-! ## Transit matcher (`transit/client.go`) -/

/-- One transit TCP client (Go struct `transit.Client`).  `connOpen`
models `conn != nil`; `wrote` the byte strings written to this client's
socket, in order. -/
structure TClient where
  sentOK : Bool
  gotToken : Bool
  token : String
  side : String
  mood : String
  buddy : Option Nat
  connOpen : Bool
  wrote : List String
  deriving DecidableEq

/-- A transit client that has connected and sent nothing but its
handshake yet. -/
def TClient.fresh : TClient :=
  { sentOK := false, gotToken := false, token := "", side := "", mood := "",
    buddy := none, connOpen := true, wrote := [] }

/-- The process-wide transit state: the clients (an association list
keyed by an opaque client id standing for the Go pointer) and the
`pending` map `token → list of (side, client)`. -/
structure TransitState where
  clients : List (Nat × TClient)
  pending : List (String × List (String × Nat))
  deriving DecidableEq

/-- Read a client by id (Go pointer dereference). -/
def getC (cs : List (Nat × TClient)) (i : Nat) : TClient :=
  ((cs.find? (fun p => p.1 == i)).map Prod.snd).getD TClient.fresh

/-- Update the client with id `i` in place. -/
def updC (cs : List (Nat × TClient)) (i : Nat) (g : TClient → TClient) :
    List (Nat × TClient) :=
  cs.map fun p => if p.1 == i then (p.1, g p.2) else p

/-- `pending[token]` lookup (`potentials, ok := pending[token]`). -/
def lookupPending (p : List (String × List (String × Nat))) (t : String) :
    Option (List (String × Nat)) :=
  (p.find? (fun e => e.1 == t)).map Prod.snd

/-- `delete(pending, token)`. -/
def removePending (p : List (String × List (String × Nat))) (t : String) :
    List (String × List (String × Nat)) :=
  p.filter (fun e => !(e.1 == t))

/-- `pending[token] = v` (map assignment: replaces any prior entry). -/
def setPending (p : List (String × List (String × Nat))) (t : String)
    (v : List (String × Nat)) : List (String × List (String × Nat)) :=
  removePending p t ++ [(t, v)]

/-- The candidate-match test of the search loop:
`ex.Side == "" || side == "" || ex.Side != side`. -/
def matchCond (exSide side : String) : Bool :=
  exSide == "" || side == "" || exSide != side

/-- `Client.Close`: close the own connection; when a buddy with an open
connection exists, close it too (the recursion stops there because the
own connection is already nil). -/
def closeClient (cs : List (Nat × TClient)) (i : Nat) : List (Nat × TClient) :=
  match (getC cs i).buddy with
  | none => updC cs i (fun c => { c with connOpen := false })
  | some j =>
      updC (updC cs i (fun c => { c with connOpen := false })) j
        (fun c => { c with connOpen := false })

/-- One iteration of the redundant-candidate loop: when the candidate's
connection is still open, write the source's literal `"redundent"` (no
trailing newline) to it; then `Close` it. -/
def redundantOne (cs : List (Nat × TClient)) (i : Nat) : List (Nat × TClient) :=
  if (getC cs i).connOpen then
    closeClient (updC cs i (fun c => { c with wrote := c.wrote ++ ["redundent"] })) i
  else closeClient cs i

/-- `connectWith(other)` on the client `i`: set `mood = happy`,
`buddy = other`, write `ok\n` to the own socket, latch `sent_ok`.  (Go
would panic writing to a closed connection; the write is skipped here —
no claim exercises that path.) -/
def connectWithF (cs : List (Nat × TClient)) (i other : Nat) : List (Nat × TClient) :=
  updC cs i (fun c =>
    { c with mood := "happy", buddy := some other,
             wrote := if c.connOpen then c.wrote ++ ["ok\n"] else c.wrote,
             sentOK := true })

/-- `processToken(token, side)` on client `selfId`, mirroring the source
exactly: record token/side/mood/got_token on self; when `pending[token]`
exists, select the first matching candidate at index `i`; the source then
executes the Go slice idiom `potentials[i] = potentials[len-1];
potentials = potentials[:len-1]` — because `match` is a pointer into the
slice, the candidate later connected is the element sitting at slot `i`
after the swap — writes `redundent` to and closes every candidate of the
trimmed slice, deletes the `token` entry, and calls `connect_with` on the
matched slot and on self.  Finally — unconditionally, also after a match —
`pending[token] = [{side, self}]`. -/
def TransitState.processToken (ts : TransitState) (selfId : Nat) (token side : String) :
    TransitState :=
  let cs0 := updC ts.clients selfId (fun c =>
    { c with token := token, side := side, mood := "lonely", gotToken := true })
  let afterMatch : TransitState :=
    match lookupPending ts.pending token with
    | none => { clients := cs0, pending := ts.pending }
    | some potentials =>
      match potentials.findIdx? (fun ex => matchCond ex.1 side) with
      | none => { clients := cs0, pending := ts.pending }
      | some i =>
        let lastE := potentials.getLastD ("", 0)
        let swapped := potentials.set i lastE
        let trimmed := swapped.take (potentials.length - 1)
        let cs1 := trimmed.foldl (fun cs red => redundantOne cs red.2) cs0
        let matchedId := (swapped.getD i ("", 0)).2
        let cs2 := connectWithF cs1 matchedId selfId
        let cs3 := connectWithF cs2 selfId matchedId
        { clients := cs3, pending := removePending ts.pending token }
  { clients := afterMatch.clients,
    pending := setPending afterMatch.pending token [(side, selfId)] }

/-! ## Mailbox id generation (`generateMailboxID`) -/

/-- The eight bits of one byte, most significant first. -/
def byteBits (b : Nat) : List Bool :=
  [b.testBit 7, b.testBit 6, b.testBit 5, b.testBit 4,
   b.testBit 3, b.testBit 2, b.testBit 1, b.testBit 0]

/-- The bit stream of a byte string, most significant bit of each byte
first. -/
def bytesToBits (bs : List Nat) : List Bool :=
  (bs.map byteBits).flatten

/-- Zero bits padding the stream to a multiple of five, as contributed by
the zero bytes RFC 4648 pads a final partial group with. -/
def padTo5 (bits : List Bool) : List Bool :=
  bits ++ List.replicate ((5 - bits.length % 5) % 5) false

/-- Split a bit stream into its consecutive five-bit groups. -/
def chunk5 : List Bool → List (List Bool)
  | [] => []
  | b :: bs => (b :: bs.take 4) :: chunk5 (bs.drop 4)
  termination_by l => l.length
  decreasing_by simp; omega

/-- The value of a bit group, most significant bit first. -/
def bitsToNat (bs : List Bool) : Nat :=
  bs.foldl (fun a b => 2 * a + (if b then 1 else 0)) 0

/-- The RFC 4648 base32 alphabet used by Go's `base32.StdEncoding`. -/
def base32Alphabet : List Char :=
  String.toList "ABCDEFGHIJKLMNOPQRSTUVWXYZ234567"

/-- The alphabet character of one five-bit value. -/
def b32char (n : Nat) : Char :=
  base32Alphabet.getD n 'A'

/-- The data characters of the RFC 4648 base32 encoding (everything
before the `=` padding). -/
def base32EncodeNoPad (bs : List Nat) : List Char :=
  (chunk5 (padTo5 (bytesToBits bs))).map (fun c => b32char (bitsToNat c))

/-- The `=` characters padding the encoding to a multiple of eight. -/
def base32PadChars (bs : List Nat) : List Char :=
  List.replicate ((8 - (base32EncodeNoPad bs).length % 8) % 8) '='

/-- `generateMailboxID` on the bytes read from the random source:
`base32.StdEncoding.EncodeToString`, then `ReplaceAll(id, "=", "")`, then
`ToLower`. -/
def generateMailboxID (bs : List Nat) : String :=
  String.mk (((base32EncodeNoPad bs ++ base32PadChars bs).filter
    (fun ch => !(ch == '='))).map Char.toLower)

/-- The lowercase RFC 4648 base32 alphabet. -/
def lowerBase32Alphabet : List Char :=
  String.toList "abcdefghijklmnopqrstuvwxyz234567"

/-! ## Claim theorems -/

/-- C1.  The spec: after `close(side, mood)`, when no side of the mailbox
remains with `opened=true`, the mailbox row, all its side rows and all its
messages are deleted before the call returns.  The code violates this: its
emptiness check is `SELECT COUNT(*)>0 FROM mailbox_sides WHERE
mailbox_id=?`, which counts every side row — including the rows of the
sides just closed — so the deletion branch is unreachable whenever a side
row exists.  Concretely: both sides of mailbox `m` open it and then close
it; afterwards no side has `opened=true`, yet the `mailboxes` row and both
`mailbox_sides` rows are still present. -/
theorem c1_close_by_every_side_leaves_rows :
    (let a : Application := { ID := "app" }
     let st2 := (a.OpenMailbox (a.OpenMailbox Store.empty "m" "L" 0).1 "m" "R" 1).1
     let m : Mailbox := { ID := "m", AppID := "app" }
     let st4 := m.Close (m.Close st2 "L" "happy") "R" "happy"
     st4.mailboxSides.countP (fun r => r.mailboxID == "m" && r.opened) = 0 ∧
     st4.mailboxes.countP (fun r => r.id == "m") = 1 ∧
     st4.mailboxSides.countP (fun r => r.mailboxID == "m") = 2 ∧
     st4.messages = st2.messages) := by
  decide

/-- C2.  The claim: two sessions bound to the same app with sides `L` and
`R` can both claim nameplate `5`; the first claim records side `L`, the
second records side `R`, and both receive `claimed` with the same mailbox
id.  The code violates this: `HandleClaim` calls
`c.App.ClaimNameplate(m.Nameplate, m.Nameplate)`, passing the nameplate
string as the `side` argument instead of `c.Side`.  The first session's
claim succeeds but records side `"5"`; the second session's claim finds
the `nameplate_sides` row for side `"5"` already claimed and fails with
`ReclaimNameplate`, sending no `claimed` frame. -/
theorem c2_second_claim_fails_with_reclaim :
    (let cA : Client := { Client.fresh with App := some "app", Side := "L" }
     let cB : Client := { Client.fresh with App := some "app", Side := "R" }
     let env : Env := { now := 0, freshMb := "mb1", r0 := 0, rands := [], allowList := true }
     let resA := cA.HandleClaim Store.empty env "5"
     let resB := cB.HandleClaim resA.2.1 { env with freshMb := "mb2" } "5"
     resA.2.2.2 = none ∧
     resA.2.2.1 = [OutMsg.claimed "mb1"] ∧
     resA.2.1.nameplateSides.map (fun r => (r.side, r.claimed)) = [("5", true)] ∧
     resB.2.2.2 = some WErr.reclaimNameplate ∧
     resB.2.2.1 = []) := by
  decide

/-- C3.  The claim: when `process_token` selects a matching candidate, the
`pending` entry for the token is gone when the call returns, and
`pending[token] = [{side, self}]` happens only in the no-match case.  The
code violates this: the assignment `pending[token] = []transitConn{...}`
sits after the match block and runs unconditionally, so right after a
successful match the just-paired caller is re-inserted as a pending
candidate.  Concretely: clients 1 and 2 present the same token with empty
sides; they are paired (both get `ok\n` and each other as buddy), yet
`pending[tok]` holds `[("", 2)]` when the second call returns. -/
theorem c3_pending_entry_reinserted_after_match :
    (let ts0 : TransitState :=
       { clients := [(1, TClient.fresh), (2, TClient.fresh)], pending := [] }
     let ts2 := (ts0.processToken 1 "tok" "").processToken 2 "tok" ""
     (getC ts2.clients 1).sentOK = true ∧
     (getC ts2.clients 1).buddy = some 2 ∧
     (getC ts2.clients 2).buddy = some 1 ∧
     (getC ts2.clients 1).wrote = ["ok\n"] ∧
     (getC ts2.clients 2).wrote = ["ok\n"] ∧
     lookupPending ts2.pending "tok" = some [("", 2)]) := by
  decide

/-- C4 counterexample.  The claim: the number of `opened=true` side rows
of a mailbox never exceeds 2 while the mailbox row exists, and a third
side's open attempt must not leave a third opened side row behind.
Refuted: `OpenMailbox` inserts the side row first and only then counts;
when the count exceeds 2 it returns `MailboxCrowded` but does not remove
the row.  After sides `a`, `b`, `c` open mailbox `m`, the third call
fails as crowded, yet three `opened=true` rows exist while the
`mailboxes` row is present. -/
theorem c4_three_opened_sides_reachable :
    (let a : Application := { ID := "app" }
     let r := a.OpenMailbox
       (a.OpenMailbox (a.OpenMailbox Store.empty "m" "a" 0).1 "m" "b" 0).1 "m" "c" 0
     r.2 = some WErr.mailboxCrowded ∧
     r.1.mailboxes.countP (fun x => x.id == "m") = 1 ∧
     r.1.mailboxSides.countP (fun x => x.mailboxID == "m" && x.opened) = 3) := by
  decide

/-- C6 counterexample.  The claim: every other candidate still in
`pending[token]` has exactly the bytes `redundant\n` written to its
socket before being closed.  Refuted on the bytes: the source writes the
literal `"redundent"` — misspelled and with no trailing newline.  With
candidates `("a",1)` and `("b",2)` pending and client 3 presenting side
`"a"`, the non-matched candidate 1 is closed after receiving
`"redundent"`, not `"redundant\n"`. -/
theorem c6_redundant_bytes_refuted :
    (let ts : TransitState :=
       { clients := [(1, TClient.fresh), (2, TClient.fresh), (3, TClient.fresh)],
         pending := [("tok", [("a", 1), ("b", 2)])] }
     let ts1 := ts.processToken 3 "tok" "a"
     (getC ts1.clients 1).wrote = ["redundent"] ∧
     ¬(getC ts1.clients 1).wrote = ["redundant\n"] ∧
     (getC ts1.clients 1).connOpen = false) := by
  decide

/-- C7.  For every inbound frame that parses, the session enqueues first —
before any response the frame generates, and before the bind-first or
handler error frames — an `ack` carrying the identical `id` taken from
the frame: the outbound list of `OnMessage` is that `ack` followed by
whatever the dispatch produced. -/
theorem c7_ack_precedes_responses (c : Client) (st : Store) (env : Env) (f : Frame) :
    ∃ rest, (c.OnMessage st env f).2.2 = OutMsg.ack f.frameID :: rest :=
  ⟨(c.afterAck st env f).2.2, rfl⟩

/-- One iteration of the fallback loop always panics: the attempt draws
from `randRange(1000, Nat.xor 1000 1000) = randRange(1000, 0)`, handing
`rand.Intn` the non-positive argument `-1000`. -/
theorem fallbackAttempts_panics (claimed : List String) (rands : List Nat) (n : Nat) :
    fallbackAttempts claimed rands (n + 1) = Except.error FindErr.panicked := by
  have hc : Int.ofNat (Nat.xor 1000 1000) - 1000 ≤ 0 := by decide
  show (match randRange (rands.headD 0) 1000 (Int.ofNat (Nat.xor 1000 1000)) with
    | none => Except.error FindErr.panicked
    | some v =>
        let id := toString v
        if claimed.contains id then fallbackAttempts claimed rands.tail n
        else Except.ok id) = Except.error FindErr.panicked
  rw [show randRange (rands.headD 0) 1000 (Int.ofNat (Nat.xor 1000 1000)) = none from by
    simp [randRange, Intn, hc]
    decide]

/-- When every short decimal name is claimed, every width's `avail` list
is empty and `FindNameplate` reaches the fallback loop, whose first
attempt panics. -/
theorem findNameplate_panics_of_all_short_claimed (a : Application) (st : Store)
    (r0 : Nat) (rands : List Nat)
    (h : ∀ n : Nat, 1 ≤ n → n < 1000 →
      (a.GetNameplateIDs st).contains (toString n) = true) :
    a.FindNameplate st r0 rands = Except.error FindErr.panicked := by
  have havail : ∀ low high : Nat, 1 ≤ low → high ≤ 1000 →
      availWidth (a.GetNameplateIDs st) low high = [] := by
    intro low high h1 h2
    unfold availWidth
    rw [List.filter_eq_nil_iff]
    intro x hx
    simp only [List.mem_map, List.mem_range] at hx
    obtain ⟨j, hj, rfl⟩ := hx
    have hc := h (low + j) (by omega) (by omega)
    simp only [Bool.not_eq_true', Bool.not_eq_false]
    exact hc
  unfold Application.FindNameplate
  rw [havail 1 10 (by omega) (by omega), havail 10 100 (by omega) (by omega),
      havail 100 1000 (by omega) (by omega)]
  simp only [List.length_nil, Nat.lt_irrefl, if_false]
  have h1000 : (1000 : Nat) = 999 + 1 := by norm_num
  rw [h1000]
  exact fallbackAttempts_panics _ _ 999

/-- The store in which every one-, two- and three-digit decimal nameplate
of application `app` is taken: nameplate rows named `1` … `999`. -/
def stAllShortClaimed : Store :=
  { Store.empty with nameplates :=
      (List.range 999).map (fun n =>
        { id := n + 1, appID := "app", name := toString (n + 1), mailboxID := "mb",
          requestID := "" }) }

set_option maxRecDepth 4000 in
/-- C5.  The claim: `find_nameplate` is total — it returns a name or
fails with `NoAvailableNameplates` — and in particular the fallback over
a wider range runs without panicking when every 1-, 2- and 3-digit name
is claimed.  The code violates this: the fallback bound `1000^1000` is
bitwise XOR (zero), so with every short name claimed the first fallback
attempt calls `rand.Intn(-1000)`, which panics instead of returning any
value. -/
theorem c5_findnameplate_panics_when_exhausted :
    Application.FindNameplate { ID := "app" } stAllShortClaimed 0 [0] =
      Except.error FindErr.panicked := by
  apply findNameplate_panics_of_all_short_claimed
  intro n h1 h2
  have hn : n - 1 + 1 = n := by omega
  have hr : ({ id := n, appID := "app", name := toString n, mailboxID := "mb",
               requestID := "" } : NameplateRow) ∈ stAllShortClaimed.nameplates := by
    have hs : stAllShortClaimed.nameplates =
        (List.range 999).map (fun j =>
          ({ id := j + 1, appID := "app", name := toString (j + 1), mailboxID := "mb",
             requestID := "" } : NameplateRow)) := rfl
    rw [hs]
    refine List.mem_map.mpr ⟨n - 1, List.mem_range.mpr (by omega), ?_⟩
    simp [hn]
  have hmem : toString n ∈ Application.GetNameplateIDs { ID := "app" } stAllShortClaimed := by
    unfold Application.GetNameplateIDs
    rw [List.mem_dedup]
    exact List.mem_map.mpr ⟨_, List.mem_filter.mpr ⟨hr, by simp⟩, rfl⟩
  exact List.elem_eq_true_of_mem hmem

/-- No character the encoder emits is the padding character, whatever the
five-bit value (out-of-range indexes fall back to the default `A`). -/
theorem b32char_ne_pad (n : Nat) : (b32char n == '=') = false := by
  unfold b32char base32Alphabet
  rcases Nat.lt_or_ge n 32 with h | h
  · interval_cases n <;> decide
  · rw [List.getD_eq_getElem?_getD, List.getElem?_eq_none (by simpa using h)]
    decide

/-- Lowercasing any alphabet character lands in the lowercase
alphabet. -/
theorem toLower_b32char_mem (n : Nat) :
    Char.toLower (b32char n) ∈ lowerBase32Alphabet := by
  unfold b32char base32Alphabet lowerBase32Alphabet
  rcases Nat.lt_or_ge n 32 with h | h
  · interval_cases n <;> decide
  · rw [List.getD_eq_getElem?_getD, List.getElem?_eq_none (by simpa using h)]
    decide

/-- A bit stream of length `n` has `⌈n/5⌉` five-bit groups. -/
theorem chunk5_length (l : List Bool) : (chunk5 l).length = (l.length + 4) / 5 := by
  induction l using chunk5.induct with
  | case1 => simp [chunk5]
  | case2 b bs ih =>
    rw [chunk5]
    simp only [List.length_cons, ih, List.length_drop]
    have hr : (bs.length + 1 + 4) / 5 = bs.length / 5 + 1 := by
      rw [show bs.length + 1 + 4 = bs.length + 5 from by omega]
      exact Nat.add_div_right _ (by omega)
    rcases Nat.lt_or_ge bs.length 4 with h | h
    · rw [show bs.length - 4 + 4 = 4 from by omega, hr,
          Nat.div_eq_of_lt (by omega : bs.length < 5),
          Nat.div_eq_of_lt (by omega : (4 : Nat) < 5)]
    · rw [show bs.length - 4 + 4 = bs.length from by omega, hr, Nat.add_comm]

/-- C8.  For every 8-byte input drawn from the random source, the
generated mailbox id is exactly 13 characters — the 64 input bits padded
to 65 yield 13 five-bit groups, and the 3 `=` padding characters are all
stripped — and every character belongs to the lowercase RFC 4648 base32
alphabet. -/
theorem c8_mailbox_id_13_lowercase_base32 (b0 b1 b2 b3 b4 b5 b6 b7 : Nat) :
    (generateMailboxID [b0, b1, b2, b3, b4, b5, b6, b7]).toList.length = 13 ∧
    ∀ ch ∈ (generateMailboxID [b0, b1, b2, b3, b4, b5, b6, b7]).toList,
      ch ∈ lowerBase32Alphabet := by
  have hbl : (bytesToBits [b0, b1, b2, b3, b4, b5, b6, b7]).length = 64 := by
    simp [bytesToBits, byteBits]
  have henc_len : (base32EncodeNoPad [b0, b1, b2, b3, b4, b5, b6, b7]).length = 13 := by
    unfold base32EncodeNoPad padTo5
    rw [List.length_map, chunk5_length, List.length_append, List.length_replicate, hbl]
  have hpads : base32PadChars [b0, b1, b2, b3, b4, b5, b6, b7] = List.replicate 3 '=' := by
    unfold base32PadChars
    rw [henc_len]
  have hfilter_enc : (base32EncodeNoPad [b0, b1, b2, b3, b4, b5, b6, b7]).filter
      (fun ch => !(ch == '=')) = base32EncodeNoPad [b0, b1, b2, b3, b4, b5, b6, b7] := by
    rw [List.filter_eq_self]
    intro ch hch
    obtain ⟨c, _, rfl⟩ := List.mem_map.mp hch
    simp [b32char_ne_pad]
  have hfp : (List.replicate 3 '=').filter (fun ch => !(ch == '=')) = [] := rfl
  have hgen : (generateMailboxID [b0, b1, b2, b3, b4, b5, b6, b7]).toList =
      (base32EncodeNoPad [b0, b1, b2, b3, b4, b5, b6, b7]).map Char.toLower := by
    unfold generateMailboxID
    rw [List.filter_append, hfilter_enc, hpads, hfp, List.append_nil]
    rfl
  refine ⟨?_, ?_⟩
  · rw [hgen, List.length_map, henc_len]
  · intro ch hch
    rw [hgen] at hch
    obtain ⟨c0, hc0, rfl⟩ := List.mem_map.mp hch
    obtain ⟨c1, _, rfl⟩ := List.mem_map.mp hc0
    exact toLower_b32char_mem _

/-- `AddMailbox` when no row for `(app_id, id)` exists: append the row. -/
theorem AddMailbox_eq_of_absent (a : Application) (st : Store) (id : String)
    (fn : Bool) (side : String) (now : Int)
    (h : st.mailboxes.countP (fun r => r.appID == a.ID && r.id == id) = 0) :
    a.AddMailbox st id fn side now =
      { st with mailboxes := st.mailboxes ++
          [{ id := id, appID := a.ID, updated := now, forNameplate := fn }] } := by
  unfold Application.AddMailbox
  rw [h]
  simp

/-- `Mailbox.Open` when no row for `(id, side)` exists: append the opened
row, then touch. -/
theorem Open_eq_of_absent (m : Mailbox) (st : Store) (side : String) (now : Int)
    (h : st.mailboxSides.find? (fun r => r.mailboxID == m.ID && r.side == side) = none) :
    m.Open st side now =
      m.Touch { st with mailboxSides := st.mailboxSides ++
          [{ mailboxID := m.ID, opened := true, side := side, added := now,
             mood := "" }] } now := by
  unfold Mailbox.Open
  rw [h]

/-- `Mailbox.Close` when the mailbox row and this side's row both exist
and (as always, given the source's missing `opened` filter) some side row
remains: only the `opened/mood` update happens, no deletion. -/
theorem Close_eq_of_found (m : Mailbox) (st : Store) (side mood : String)
    (rb : MailboxRow) (rs : MailboxSideRow)
    (hbox : st.mailboxes.find? (fun r => r.appID == m.AppID && r.id == m.ID) = some rb)
    (hside : st.mailboxSides.find? (fun r => r.mailboxID == m.ID && r.side == side) = some rs)
    (hcnt : 0 < st.mailboxSides.countP (fun r => r.mailboxID == m.ID)) :
    m.Close st side mood =
      { st with mailboxSides := st.mailboxSides.map (fun r =>
          if r.mailboxID == m.ID && r.side == side then
            { r with opened := false, mood := mood } else r) } := by
  unfold Mailbox.Close
  rw [hbox, hside]
  have hmapcnt : (st.mailboxSides.map (fun r =>
      if r.mailboxID == m.ID && r.side == side then
        { r with opened := false, mood := mood } else r)).countP
      (fun r => r.mailboxID == m.ID) =
      st.mailboxSides.countP (fun r => r.mailboxID == m.ID) := by
    rw [List.countP_map]
    apply List.countP_congr
    intro r _
    simp only [Function.comp_apply]
    split <;> exact Iff.rfl
  simp only [hmapcnt]
  rw [if_pos hcnt]

/-- C9.  A bound session with no bound mailbox handling
`close{mailbox: M, mood}` for an id `M` with no durable `mailboxes` row
(and no stray side rows): the handler first opens `M` — creating a
durable `mailboxes` row for `(app, M)` and a `mailbox_sides` row for
`(M, session side)` — and then closes that side; it reports no error,
responds `closed`, latches the session closed, and the newly created rows
remain durably in the store after the call, the side row now carrying
`opened=false` and the given mood. -/
theorem c9_close_unknown_mailbox_creates_rows
    (c : Client) (st : Store) (env : Env) (app M mood : String)
    (hA : c.App = some app) (hCl : c.Closed = false) (hMb : c.Mailbox = none)
    (hM : M ≠ "")
    (h1 : ∀ r ∈ st.mailboxes, ¬(r.appID = app ∧ r.id = M))
    (h2 : ∀ r ∈ st.mailboxSides, r.mailboxID ≠ M) :
    (c.HandleClose st env M mood).2.2.2 = none ∧
    (c.HandleClose st env M mood).2.2.1 = [OutMsg.closed] ∧
    (c.HandleClose st env M mood).1.Closed = true ∧
    (c.HandleClose st env M mood).2.1.mailboxes.countP
      (fun r => r.appID == app && r.id == M) = 1 ∧
    (c.HandleClose st env M mood).2.1.mailboxSides.countP
      (fun r => r.mailboxID == M) = 1 ∧
    (c.HandleClose st env M mood).2.1.mailboxSides.countP
      (fun r => r.mailboxID == M && r.side == c.Side && r.opened == false
        && r.mood == mood) = 1 := by
  have happ : c.app = { ID := app } := by
    simp [Client.app, hA]
  have hMne : (M == "") = false := beq_eq_false_iff_ne.mpr hM
  have hcnt0 : st.mailboxes.countP (fun r => r.appID == app && r.id == M) = 0 := by
    rw [List.countP_eq_zero]
    intro r hr
    simp only [Bool.and_eq_true, beq_iff_eq]
    exact h1 r hr
  have hfind0 : st.mailboxSides.find?
      (fun r => r.mailboxID == M && r.side == c.Side) = none := by
    rw [List.find?_eq_none]
    intro r hr
    simp only [Bool.and_eq_true, beq_iff_eq]
    rintro ⟨hm, -⟩
    exact h2 r hr hm
  have hscnt0 : st.mailboxSides.countP (fun r => r.mailboxID == M) = 0 := by
    rw [List.countP_eq_zero]
    intro r hr
    simp only [beq_iff_eq]
    exact h2 r hr
  have hopen : Application.OpenMailbox { ID := app } st M c.Side env.now =
      ({ st with
          mailboxes := st.mailboxes.map
            (fun r : MailboxRow =>
              if r.id == M then { r with updated := env.now } else r) ++
            [{ id := M, appID := app, updated := env.now, forNameplate := false }],
          mailboxSides := st.mailboxSides ++
            [{ mailboxID := M, opened := true, side := c.Side, added := env.now,
               mood := "" }] }, none) := by
    simp only [Application.OpenMailbox, Application.AddMailbox, Mailbox.Open, Mailbox.Touch]
    rw [hcnt0]
    simp [hfind0, List.countP_append, hscnt0]
  have hpresBox : ∀ r : MailboxRow,
      ((if r.id == M then { r with updated := env.now } else r).appID == app &&
       (if r.id == M then { r with updated := env.now } else r).id == M) =
      (r.appID == app && r.id == M) := by
    intro r
    by_cases h : r.id == M <;> simp [h]
  have hcntBox : ((st.mailboxes.map
      (fun r : MailboxRow => if r.id == M then { r with updated := env.now } else r)) ++
      [({ id := M, appID := app, updated := env.now, forNameplate := false } : MailboxRow)]).countP
      (fun r => r.appID == app && r.id == M) = 1 := by
    rw [List.countP_append, List.countP_map]
    have h0 : List.countP ((fun r : MailboxRow => r.appID == app && r.id == M) ∘
        (fun r : MailboxRow => if r.id == M then { r with updated := env.now } else r))
        st.mailboxes = 0 := by
      rw [List.countP_congr (q := fun r : MailboxRow => r.appID == app && r.id == M)]
      · exact hcnt0
      · intro r _
        simp only [Function.comp_apply, hpresBox]
    rw [h0]
    simp
  have hboxfind : ((st.mailboxes.map
      (fun r : MailboxRow => if r.id == M then { r with updated := env.now } else r)) ++
      [({ id := M, appID := app, updated := env.now, forNameplate := false } : MailboxRow)]).find?
      (fun r => r.appID == app && r.id == M) =
      some { id := M, appID := app, updated := env.now, forNameplate := false } := by
    rw [List.find?_append]
    have h0 : (st.mailboxes.map
        (fun r : MailboxRow => if r.id == M then { r with updated := env.now } else r)).find?
        (fun r => r.appID == app && r.id == M) = none := by
      rw [List.find?_eq_none]
      intro x hx
      obtain ⟨r, hr, rfl⟩ := List.mem_map.mp hx
      rw [hpresBox]
      simp only [Bool.and_eq_true, beq_iff_eq]
      exact h1 r hr
    rw [h0, Option.none_or]
    simp
  have hsidefind : (st.mailboxSides ++
      [({ mailboxID := M, opened := true, side := c.Side, added := env.now,
          mood := "" } : MailboxSideRow)]).find?
      (fun r => r.mailboxID == M && r.side == c.Side) =
      some { mailboxID := M, opened := true, side := c.Side, added := env.now,
             mood := "" } := by
    rw [List.find?_append, hfind0, Option.none_or]
    simp
  have hcntPos : 0 < (st.mailboxSides ++
      [({ mailboxID := M, opened := true, side := c.Side, added := env.now,
          mood := "" } : MailboxSideRow)]).countP
      (fun r => r.mailboxID == M) := by
    rw [List.countP_append, hscnt0]
    simp
  have hclose : (({ ID := M, AppID := app } : Mailbox)).Close
      ({ st with
          mailboxes := st.mailboxes.map
            (fun r : MailboxRow =>
              if r.id == M then { r with updated := env.now } else r) ++
            [{ id := M, appID := app, updated := env.now, forNameplate := false }],
          mailboxSides := st.mailboxSides ++
            [{ mailboxID := M, opened := true, side := c.Side, added := env.now,
               mood := "" }] }) c.Side mood =
      { st with
          mailboxes := st.mailboxes.map
            (fun r : MailboxRow =>
              if r.id == M then { r with updated := env.now } else r) ++
            [{ id := M, appID := app, updated := env.now, forNameplate := false }],
          mailboxSides := (st.mailboxSides ++
            [({ mailboxID := M, opened := true, side := c.Side, added := env.now,
                mood := "" } : MailboxSideRow)]).map
            (fun r : MailboxSideRow =>
              if r.mailboxID == M && r.side == c.Side then
                { r with opened := false, mood := mood } else r) } :=
    Close_eq_of_found _ _ _ _ _ _ hboxfind hsidefind hcntPos
  have hzc : (st.mailboxSides.map
      (fun r : MailboxSideRow =>
        if r.mailboxID == M && r.side == c.Side then
          { r with opened := false, mood := mood } else r)).countP
      (fun r => r.mailboxID == M) = 0 := by
    rw [List.countP_map, List.countP_congr (q := fun r : MailboxSideRow => r.mailboxID == M)]
    · exact hscnt0
    · intro r _
      simp only [Function.comp_apply]
      split <;> exact Iff.rfl
  have hcnt5 : ((st.mailboxSides ++
      [({ mailboxID := M, opened := true, side := c.Side, added := env.now,
          mood := "" } : MailboxSideRow)]).map
      (fun r : MailboxSideRow =>
        if r.mailboxID == M && r.side == c.Side then
          { r with opened := false, mood := mood } else r)).countP
      (fun r => r.mailboxID == M) = 1 := by
    rw [List.map_append, List.countP_append, hzc]
    simp
  have hzc6 : (st.mailboxSides.map
      (fun r : MailboxSideRow =>
        if r.mailboxID == M && r.side == c.Side then
          { r with opened := false, mood := mood } else r)).countP
      (fun r => r.mailboxID == M && r.side == c.Side && r.opened == false
        && r.mood == mood) = 0 := by
    rw [List.countP_eq_zero]
    intro x hx
    obtain ⟨r, hr, rfl⟩ := List.mem_map.mp hx
    intro hcontra
    simp only [Bool.and_eq_true] at hcontra
    have ha := hcontra.1.1.1
    revert ha
    split <;> intro ha <;> exact h2 r hr (by simpa using ha)
  have hcnt6 : ((st.mailboxSides ++
      [({ mailboxID := M, opened := true, side := c.Side, added := env.now,
          mood := "" } : MailboxSideRow)]).map
      (fun r : MailboxSideRow =>
        if r.mailboxID == M && r.side == c.Side then
          { r with opened := false, mood := mood } else r)).countP
      (fun r => r.mailboxID == M && r.side == c.Side && r.opened == false
        && r.mood == mood) = 1 := by
    rw [List.map_append, List.countP_append, hzc6]
    simp
  simp only [Client.HandleClose, hCl, hMb, hMne, happ, hopen, hclose, Bool.false_and,
    Bool.and_false, Option.getD_some, Option.isNone_none, Bool.false_eq_true,
    if_false]
  refine ⟨trivial, trivial, trivial, ?_, ?_, ?_⟩
  · exact hcntBox
  · exact hcnt5
  · exact hcnt6

/-- Witness for C9: a fresh session bound to app `app` with side `L`
closing the unknown mailbox `M` on the empty store. -/
theorem c9_witness :
    (({ Client.fresh with App := some "app", Side := "L" } : Client).HandleClose Store.empty
        { now := 0, freshMb := "mb", r0 := 0, rands := [], allowList := true }
        "M" "happy").2.2.2 = none ∧
    (({ Client.fresh with App := some "app", Side := "L" } : Client).HandleClose Store.empty
        { now := 0, freshMb := "mb", r0 := 0, rands := [], allowList := true }
        "M" "happy").2.1.mailboxes.countP
      (fun r => r.appID == "app" && r.id == "M") = 1 :=
  have h := c9_close_unknown_mailbox_creates_rows
    { Client.fresh with App := some "app", Side := "L" } Store.empty
    { now := 0, freshMb := "mb", r0 := 0, rands := [], allowList := true }
    "app" "M" "happy" rfl rfl rfl (by decide)
    (by intro r hr; cases hr) (by intro r hr; cases hr)
  ⟨h.1, h.2.2.2.1⟩

/-- Rows erased by a delete never survive the deletion's own filter. -/
theorem countP_filter_not {α : Type} (l : List α) (p : α → Bool) :
    (l.filter (fun a => !(p a))).countP p = 0 := by
  rw [List.countP_eq_zero]
  intro a ha
  have h := (List.mem_filter.mp ha).2
  simp only [Bool.not_eq_true'] at h
  simp [h]

/-- `OpenMailbox` never touches the nameplate tables. -/
theorem OpenMailbox_preserves_nameplates (a : Application) (st : Store)
    (id side : String) (now : Int) :
    (a.OpenMailbox st id side now).1.nameplates = st.nameplates ∧
    (a.OpenMailbox st id side now).1.nameplateSides = st.nameplateSides ∧
    (a.OpenMailbox st id side now).1.nextNameplateID = st.nextNameplateID := by
  refine ⟨?_, ?_, ?_⟩ <;>
    (simp only [Application.OpenMailbox, Application.AddMailbox, Mailbox.Open,
      Mailbox.Touch]
     repeat' split) <;> rfl

/-- C10.  When a `nameplate_sides` row for `(nameplate, side)` already
exists with `claimed=false` (as after that side released while the other
side still held its claim), `claim_nameplate(name, side)` succeeds and
returns the nameplate's mailbox id, but does not re-record the claim: the
insert runs only in the row-absent branch, so the nameplate tables are
left untouched and the row's `claimed` flag stays `false`.  Consequently
a later release by the other side alone drops the last `claimed=true` row
and deletes the nameplate row and all its side rows. -/
theorem c10_claim_with_unclaimed_side_row
    (st : Store) (app name side otherSide freshMb : String) (now : Int)
    (np : NameplateRow) (rowS rowO : NameplateSideRow)
    (hnp : st.nameplates.find? (fun r => r.appID == app && r.name == name) = some np)
    (hrow : st.nameplateSides.find? (fun r => r.nameplateID == np.id && r.side == side) =
      some rowS)
    (hfalse : rowS.claimed = false)
    (hopen : (Application.OpenMailbox { ID := app } st np.mailboxID side now).2 = none)
    (hcount : st.nameplateSides.countP (fun r => r.nameplateID == np.id) ≤ 2)
    (hrowO : st.nameplateSides.find?
      (fun r => r.nameplateID == np.id && r.side == otherSide) = some rowO)
    (honly : ∀ r ∈ st.nameplateSides, r.nameplateID = np.id → r.claimed = true →
      r.side = otherSide) :
    (Application.ClaimNameplate { ID := app } st name side freshMb now).2 =
      Except.ok np.mailboxID ∧
    (Application.ClaimNameplate { ID := app } st name side freshMb now).1.nameplateSides =
      st.nameplateSides ∧
    (Application.ClaimNameplate { ID := app } st name side freshMb now).1.nameplates =
      st.nameplates ∧
    (Application.ReleaseNameplate { ID := app }
        (Application.ClaimNameplate { ID := app } st name side freshMb now).1
        name otherSide).nameplates.countP (fun r => r.id == np.id) = 0 ∧
    (Application.ReleaseNameplate { ID := app }
        (Application.ClaimNameplate { ID := app } st name side freshMb now).1
        name otherSide).nameplateSides.countP (fun r => r.nameplateID == np.id) = 0 := by
  have hpres := OpenMailbox_preserves_nameplates { ID := app } st np.mailboxID side now
  have hopen2 : Application.OpenMailbox { ID := app } st np.mailboxID side now =
      ((Application.OpenMailbox { ID := app } st np.mailboxID side now).1, none) :=
    Prod.ext rfl hopen
  have hnotlt : ¬(2 < st.nameplateSides.countP (fun r => r.nameplateID == np.id)) :=
    Nat.not_lt.mpr hcount
  have hclaim : Application.ClaimNameplate { ID := app } st name side freshMb now =
      ((Application.OpenMailbox { ID := app } st np.mailboxID side now).1,
        Except.ok np.mailboxID) := by
    unfold Application.ClaimNameplate
    simp only [hnp, hrow, hfalse, Bool.false_eq_true, if_false]
    rw [hopen2]
    simp only [hpres.2.1]
    rw [if_neg hnotlt]
  have hzero : (st.nameplateSides.map
      (fun r : NameplateSideRow =>
        if r.nameplateID == np.id && r.side == otherSide then { r with claimed := false }
        else r)).countP (fun r => r.nameplateID == np.id && r.claimed) = 0 := by
    rw [List.countP_eq_zero]
    intro x hx
    obtain ⟨r, hr, rfl⟩ := List.mem_map.mp hx
    intro hcontra
    simp only [Bool.and_eq_true] at hcontra
    revert hcontra
    split
    · rintro ⟨-, hcl⟩
      exact absurd hcl (by simp)
    · next hcond =>
      rintro ⟨hid, hcl⟩
      have hid2 : r.nameplateID = np.id := by simpa using hid
      have hside := honly r hr hid2 hcl
      exact hcond (by simp [hid2, hside])
  rw [hclaim]
  refine ⟨rfl, hpres.2.1, hpres.1, ?_, ?_⟩
  · unfold Application.ReleaseNameplate
    simp only [hpres.1, hpres.2.1, hnp, hrowO]
    simp only [hzero, Nat.lt_irrefl, if_false]
    exact countP_filter_not _ _
  · unfold Application.ReleaseNameplate
    simp only [hpres.1, hpres.2.1, hnp, hrowO]
    simp only [hzero, Nat.lt_irrefl, if_false]
    exact countP_filter_not _ _

/-- The C10 witness store: nameplate `7` of app `app`, side `L` present
but unclaimed, side `R` claimed, the mailbox open on side `R`. -/
def stC10 : Store :=
  { mailboxes := [{ id := "mb", appID := "app", updated := 0, forNameplate := true }],
    mailboxSides := [{ mailboxID := "mb", opened := true, side := "R", added := 0,
                       mood := "" }],
    messages := [],
    nameplates := [{ id := 1, appID := "app", name := "7", mailboxID := "mb",
                     requestID := "" }],
    nameplateSides := [{ nameplateID := 1, claimed := false, side := "L", added := 0 },
                       { nameplateID := 1, claimed := true, side := "R", added := 0 }],
    nextNameplateID := 2 }

/-- Witness for C10: side `L` re-claims nameplate `7` of `stC10`, then
side `R` releases and the nameplate row is gone. -/
theorem c10_witness :
    (Application.ClaimNameplate { ID := "app" } stC10 "7" "L" "fresh" 5).2 =
      Except.ok "mb" ∧
    (Application.ReleaseNameplate { ID := "app" }
        (Application.ClaimNameplate { ID := "app" } stC10 "7" "L" "fresh" 5).1
        "7" "R").nameplates.countP (fun r => r.id == 1) = 0 :=
  have h := c10_claim_with_unclaimed_side_row stC10 "app" "7" "L" "R" "fresh" 5
    { id := 1, appID := "app", name := "7", mailboxID := "mb", requestID := "" }
    { nameplateID := 1, claimed := false, side := "L", added := 0 }
    { nameplateID := 1, claimed := true, side := "R", added := 0 }
    (by decide) (by decide) rfl (by decide) (by decide) (by decide) (by decide)
  ⟨h.1, h.2.2.2.1⟩

/-- The two-part side invariant on a `mailbox_sides` table: at most one
row per `(mailbox, side)` pair, and every row's side drawn from
`{s1, s2}`. -/
def SidesInvL (s1 s2 : String) (l : List MailboxSideRow) : Prop :=
  (∀ mID sd : String,
    l.countP (fun r => r.mailboxID == mID && r.side == sd) ≤ 1) ∧
  (∀ r ∈ l, r.side = s1 ∨ r.side = s2)

/-- States reachable from the empty store by `open_mailbox` and `close`
operations whose opens draw the side from the two-element set
`{s1, s2}`. -/
inductive ReachTwo (s1 s2 : String) : Store → Prop where
  | init : ReachTwo s1 s2 Store.empty
  | openStep (st : Store) (a : Application) (id side : String) (now : Int) :
      ReachTwo s1 s2 st → (side = s1 ∨ side = s2) →
      ReachTwo s1 s2 (a.OpenMailbox st id side now).1
  | closeStep (st : Store) (m : Mailbox) (side mood : String) :
      ReachTwo s1 s2 st → ReachTwo s1 s2 (m.Close st side mood)

theorem sidesInvL_append (s1 s2 id side : String) (now : Int)
    (l : List MailboxSideRow) (h : SidesInvL s1 s2 l) (hs : side = s1 ∨ side = s2)
    (heq : l.find? (fun r => r.mailboxID == id && r.side == side) = none) :
    SidesInvL s1 s2 (l ++
      [{ mailboxID := id, opened := true, side := side, added := now, mood := "" }]) := by
  constructor
  · intro mID sd
    rw [List.countP_append]
    by_cases hc : id = mID ∧ side = sd
    · have h0 : l.countP (fun r => r.mailboxID == mID && r.side == sd) = 0 := by
        rw [List.countP_eq_zero]
        intro r hr
        have hnone := List.find?_eq_none.mp heq r hr
        rcases hc with ⟨rfl, rfl⟩
        exact hnone
      have h1' : List.countP (fun r : MailboxSideRow => r.mailboxID == mID && r.side == sd)
          [{ mailboxID := id, opened := true, side := side, added := now,
             mood := "" }] ≤ 1 := by
        simp only [List.countP_cons, List.countP_nil]
        split <;> omega
      omega
    · have hfalse : ((id == mID) && (side == sd)) = false := by
        rcases not_and_or.mp hc with h | h
        · simp [beq_eq_false_iff_ne.mpr h]
        · simp [beq_eq_false_iff_ne.mpr h]
      have h1' : List.countP (fun r : MailboxSideRow => r.mailboxID == mID && r.side == sd)
          [{ mailboxID := id, opened := true, side := side, added := now,
             mood := "" }] = 0 := by
        simp only [List.countP_cons, List.countP_nil]
        simp [hfalse]
      have h2' := h.1 mID sd
      omega
  · intro r hr
    rcases List.mem_append.mp hr with h1 | h2
    · exact h.2 r h1
    · have hrr : r = ({ mailboxID := id, opened := true, side := side, added := now,
                         mood := "" } : MailboxSideRow) := by simpa using h2
      subst hrr
      simpa using hs

theorem sidesInvL_map (s1 s2 mID0 side0 mood0 : String) (l : List MailboxSideRow)
    (h : SidesInvL s1 s2 l) :
    SidesInvL s1 s2 (l.map (fun r =>
      if r.mailboxID == mID0 && r.side == side0 then
        { r with opened := false, mood := mood0 } else r)) := by
  constructor
  · intro mID sd
    rw [List.countP_map,
        List.countP_congr (q := fun r : MailboxSideRow => r.mailboxID == mID && r.side == sd)]
    · exact h.1 mID sd
    · intro r _
      simp only [Function.comp_apply]
      split <;> exact Iff.rfl
  · intro r hr
    obtain ⟨r0, hr0, rfl⟩ := List.mem_map.mp hr
    have hh := h.2 r0 hr0
    split
    · simpa using hh
    · exact hh

theorem sidesInvL_filter (s1 s2 : String) (l : List MailboxSideRow)
    (p : MailboxSideRow → Bool) (h : SidesInvL s1 s2 l) :
    SidesInvL s1 s2 (l.filter p) := by
  constructor
  · intro mID sd
    have hsub : List.Sublist (l.filter p) l := List.filter_sublist l
    exact le_trans (hsub.countP_le (fun r : MailboxSideRow =>
      r.mailboxID == mID && r.side == sd)) (h.1 mID sd)
  · intro r hr
    exact h.2 r (List.mem_filter.mp hr).1

theorem SidesInv_open (s1 s2 : String) (a : Application) (st : Store)
    (id side : String) (now : Int) (h : SidesInvL s1 s2 st.mailboxSides)
    (hs : side = s1 ∨ side = s2) :
    SidesInvL s1 s2 (a.OpenMailbox st id side now).1.mailboxSides := by
  simp only [Application.OpenMailbox, Application.AddMailbox, Mailbox.Open, Mailbox.Touch]
  repeat' split
  all_goals first
    | exact h
    | exact sidesInvL_append s1 s2 id side now _ h hs (by assumption)

theorem SidesInv_close (s1 s2 : String) (m : Mailbox) (st : Store)
    (side mood : String) (h : SidesInvL s1 s2 st.mailboxSides) :
    SidesInvL s1 s2 (m.Close st side mood).mailboxSides := by
  simp only [Mailbox.Close, Mailbox.Delete]
  split
  · exact h
  · split
    · exact h
    · split
      · exact sidesInvL_map s1 s2 m.ID side mood _ h
      · exact sidesInvL_filter s1 s2 _ _ (sidesInvL_map s1 s2 m.ID side mood _ h)

theorem reachTwo_inv (s1 s2 : String) (st : Store) (h : ReachTwo s1 s2 st) :
    SidesInvL s1 s2 st.mailboxSides := by
  induction h with
  | init =>
      constructor
      · intro mID sd
        simp [Store.empty]
      · intro r hr
        cases hr
  | openStep st a id side now _ hs ih => exact SidesInv_open s1 s2 a st id side now ih hs
  | closeStep st m side mood _ ih => exact SidesInv_close s1 s2 m st side mood ih

theorem countP_le_countP_add_countP {α : Type} (l : List α) (p q1 q2 : α → Bool)
    (h : ∀ a ∈ l, p a = true → (q1 a = true ∨ q2 a = true)) :
    l.countP p ≤ l.countP q1 + l.countP q2 := by
  induction l with
  | nil => simp
  | cons x xs ih =>
    have ih2 := ih (fun a ha => h a (List.mem_cons_of_mem x ha))
    simp only [List.countP_cons]
    have b1 : (if p x = true then 1 else 0) ≤
        (if q1 x = true then 1 else 0) + (if q2 x = true then 1 else 0) := by
      cases hpx : p x
      · simp
      · rcases h x (List.mem_cons_self x xs) hpx with h1 | h1 <;> simp [h1]
    omega

/-- C4 amended.  The original bound fails (see the counterexample): a
third side's open returns `MailboxCrowded` but leaves its `opened=true`
row behind.  Restricted as the counterexample forces — to histories whose
opens use at most two distinct sides — the bound holds: in every state
reachable from the empty store by `open_mailbox` and `close` operations
with sides drawn from `{s1, s2}`, no mailbox has more than two
`opened=true` side rows. -/
theorem c4_amended (s1 s2 : String) (st : Store) (h : ReachTwo s1 s2 st)
    (mID : String) :
    st.mailboxSides.countP (fun r => r.mailboxID == mID && r.opened) ≤ 2 := by
  have hinv := reachTwo_inv s1 s2 st h
  have key := countP_le_countP_add_countP st.mailboxSides
    (fun r => r.mailboxID == mID && r.opened)
    (fun r => r.mailboxID == mID && r.side == s1)
    (fun r => r.mailboxID == mID && r.side == s2)
    (by
      intro r hr hp
      simp only [Bool.and_eq_true] at hp
      rcases hinv.2 r hr with hh | hh
      · left
        simp [hp.1, hh]
      · right
        simp [hp.1, hh])
  have k1 := hinv.1 mID s1
  have k2 := hinv.1 mID s2
  omega

/-- Witness for C4 amended: one open by side `L` from the empty store. -/
theorem c4_amended_witness :
    ((Application.mk "app").OpenMailbox Store.empty "m" "L" 0).1.mailboxSides.countP
      (fun r => r.mailboxID == "m" && r.opened) ≤ 2 :=
  c4_amended "L" "R" _
    (ReachTwo.openStep Store.empty (Application.mk "app") "m" "L" 0 ReachTwo.init
      (Or.inl rfl)) "m"

/-- The pure effect the redundant-candidate loop has on one candidate:
write `redundent` when the connection is open, then close it. -/
def redundantPure (c : TClient) : TClient :=
  if c.connOpen then { c with wrote := c.wrote ++ ["redundent"], connOpen := false }
  else { c with connOpen := false }

/-- Reading back after an in-place update: the first entry with the key
decides, and only the updated key's value changes. -/
theorem getC_updC (cs : List (Nat × TClient)) (i x : Nat) (g : TClient → TClient) :
    getC (updC cs i g) x =
      match cs.find? (fun p => p.1 == x) with
      | none => TClient.fresh
      | some p => if p.1 == i then g p.2 else p.2 := by
  unfold getC updC
  rw [List.find?_map]
  have hpred : ((fun p : Nat × TClient => p.1 == x) ∘
      (fun p : Nat × TClient => if p.1 == i then (p.1, g p.2) else p)) =
      (fun p : Nat × TClient => p.1 == x) := by
    funext p
    simp only [Function.comp_apply]
    split <;> rfl
  rw [hpred]
  cases hf : cs.find? (fun p => p.1 == x) with
  | none => rfl
  | some p =>
    simp only [Option.map_map, Option.map_some', Option.getD_some, Function.comp_apply]
    split <;> rfl

theorem getC_updC_ne (cs : List (Nat × TClient)) (i x : Nat) (g : TClient → TClient)
    (h : x ≠ i) : getC (updC cs i g) x = getC cs x := by
  rw [getC_updC]
  unfold getC
  cases hf : cs.find? (fun p => p.1 == x) with
  | none => rfl
  | some p =>
    have hp1 : p.1 = x := by simpa using List.find?_some hf
    show (if (p.1 == i) = true then g p.2 else p.2) =
      (Option.map Prod.snd (some p)).getD TClient.fresh
    rw [if_neg (by simp [hp1, h])]
    rfl

theorem getC_updC_self (cs : List (Nat × TClient)) (i : Nat) (g : TClient → TClient)
    (h : ∃ p ∈ cs, p.1 = i) : getC (updC cs i g) i = g (getC cs i) := by
  rw [getC_updC]
  unfold getC
  cases hf : cs.find? (fun p => p.1 == i) with
  | none =>
    obtain ⟨p, hp, hp1⟩ := h
    have := List.find?_eq_none.mp hf p hp
    simp [hp1] at this
  | some p =>
    have hp1 : p.1 = i := by simpa using List.find?_some hf
    show (if (p.1 == i) = true then g p.2 else p.2) =
      g ((Option.map Prod.snd (some p)).getD TClient.fresh)
    rw [if_pos (by simp [hp1])]
    rfl

/-- Key presence survives an update. -/
theorem presence_updC (cs : List (Nat × TClient)) (i x : Nat) (g : TClient → TClient)
    (h : ∃ p ∈ cs, p.1 = x) : ∃ p ∈ updC cs i g, p.1 = x := by
  obtain ⟨p, hp, hp1⟩ := h
  refine ⟨if p.1 == i then (p.1, g p.2) else p, List.mem_map.mpr ⟨p, hp, rfl⟩, ?_⟩
  split <;> simpa using hp1

theorem closeClient_no_buddy (cs : List (Nat × TClient)) (k : Nat)
    (hb : (getC cs k).buddy = none) :
    closeClient cs k = updC cs k (fun c => { c with connOpen := false }) := by
  unfold closeClient
  rw [hb]

theorem closeClient_getC_ne (cs : List (Nat × TClient)) (k x : Nat)
    (hb : (getC cs k).buddy = none) (hx : x ≠ k) :
    getC (closeClient cs k) x = getC cs x := by
  rw [closeClient_no_buddy _ _ hb]
  exact getC_updC_ne _ _ _ _ hx

theorem getC_updC_buddy (cs : List (Nat × TClient)) (i x : Nat)
    (g : TClient → TClient) (hg : ∀ c, (g c).buddy = c.buddy) :
    (getC (updC cs i g) x).buddy = (getC cs x).buddy := by
  rw [getC_updC]
  unfold getC
  cases hf : cs.find? (fun p => p.1 == x) with
  | none => rfl
  | some p =>
    show (if (p.1 == i) = true then g p.2 else p.2).buddy = _
    split
    · simp [hg]
    · rfl

/-- The redundant write changes no buddy pointer. -/
theorem getC_updC_buddy_wr (cs : List (Nat × TClient)) (i x : Nat) :
    (getC (updC cs i (fun c => { c with wrote := c.wrote ++ ["redundent"] })) x).buddy =
      (getC cs x).buddy :=
  getC_updC_buddy cs i x (fun c => { c with wrote := c.wrote ++ ["redundent"] })
    (fun _ => rfl)

/-- Closing a connection changes no buddy pointer. -/
theorem getC_updC_buddy_cl (cs : List (Nat × TClient)) (i x : Nat) :
    (getC (updC cs i (fun c => { c with connOpen := false })) x).buddy =
      (getC cs x).buddy :=
  getC_updC_buddy cs i x (fun c => { c with connOpen := false }) (fun _ => rfl)

theorem redundantOne_getC_ne (cs : List (Nat × TClient)) (k x : Nat)
    (hb : (getC cs k).buddy = none) (hx : x ≠ k) :
    getC (redundantOne cs k) x = getC cs x := by
  unfold redundantOne
  split
  · have hb1 : (getC (updC cs k (fun c => { c with wrote := c.wrote ++ ["redundent"] })) k).buddy
        = none := by
      rw [getC_updC_buddy_wr]
      exact hb
    rw [closeClient_getC_ne _ _ _ hb1 hx, getC_updC_ne _ _ _ _ hx]
  · exact closeClient_getC_ne _ _ _ hb hx

theorem redundantOne_getC_self (cs : List (Nat × TClient)) (k : Nat)
    (hb : (getC cs k).buddy = none) (hp : ∃ p ∈ cs, p.1 = k) :
    getC (redundantOne cs k) k = redundantPure (getC cs k) := by
  unfold redundantOne redundantPure
  split
  · next hopen =>
    have hw := getC_updC_self cs k (fun c => { c with wrote := c.wrote ++ ["redundent"] }) hp
    have hb1 : (getC (updC cs k
        (fun c => { c with wrote := c.wrote ++ ["redundent"] })) k).buddy = none := by
      rw [hw]
      exact hb
    rw [closeClient_no_buddy _ _ hb1,
        getC_updC_self _ _ _ (presence_updC _ _ _ _ hp), hw]
  · rw [closeClient_no_buddy _ _ hb, getC_updC_self _ _ _ hp]

theorem closeClient_buddy (cs : List (Nat × TClient)) (k x : Nat) :
    (getC (closeClient cs k) x).buddy = (getC cs x).buddy := by
  unfold closeClient
  split
  · rw [getC_updC_buddy_cl]
  · rw [getC_updC_buddy_cl, getC_updC_buddy_cl]

theorem redundantOne_buddy (cs : List (Nat × TClient)) (k x : Nat) :
    (getC (redundantOne cs k) x).buddy = (getC cs x).buddy := by
  unfold redundantOne
  split
  · rw [closeClient_buddy, getC_updC_buddy_wr]
  · rw [closeClient_buddy]

theorem closeClient_presence (cs : List (Nat × TClient)) (k x : Nat)
    (h : ∃ p ∈ cs, p.1 = x) : ∃ p ∈ closeClient cs k, p.1 = x := by
  unfold closeClient
  split
  · exact presence_updC _ _ _ _ h
  · exact presence_updC _ _ _ _ (presence_updC _ _ _ _ h)

theorem redundantOne_presence (cs : List (Nat × TClient)) (k x : Nat)
    (h : ∃ p ∈ cs, p.1 = x) : ∃ p ∈ redundantOne cs k, p.1 = x := by
  unfold redundantOne
  split
  · exact closeClient_presence _ _ _ (presence_updC _ _ _ _ h)
  · exact closeClient_presence _ _ _ h

/-- Candidates outside the redundant list are untouched by the loop. -/
theorem fold_red_frame (l : List (String × Nat)) (cs : List (Nat × TClient)) (j : Nat)
    (hnot : j ∉ l.map Prod.snd)
    (hbuddy : ∀ e ∈ l, (getC cs e.2).buddy = none) :
    getC (l.foldl (fun acc red => redundantOne acc red.2) cs) j = getC cs j := by
  induction l generalizing cs with
  | nil => rfl
  | cons e rest ih =>
    have hne : j ≠ e.2 := fun h => hnot (by simp [h])
    have hnotr : j ∉ rest.map Prod.snd := fun h => hnot (by simp [h])
    have hbr : ∀ e2 ∈ rest, (getC (redundantOne cs e.2) e2.2).buddy = none := by
      intro e2 he2
      rw [redundantOne_buddy]
      exact hbuddy e2 (List.mem_cons_of_mem _ he2)
    simp only [List.foldl_cons]
    rw [ih (redundantOne cs e.2) hnotr hbr,
        redundantOne_getC_ne cs e.2 j (hbuddy e (List.mem_cons_self _ _)) hne]

/-- A candidate appearing exactly once in the redundant list receives
exactly one `redundent` write followed by a close. -/
theorem fold_red_once (l : List (String × Nat)) (cs : List (Nat × TClient)) (j : Nat)
    (hcount : (l.map Prod.snd).count j = 1)
    (hbuddy : ∀ e ∈ l, (getC cs e.2).buddy = none)
    (hp : ∃ p ∈ cs, p.1 = j) :
    getC (l.foldl (fun acc red => redundantOne acc red.2) cs) j =
      redundantPure (getC cs j) := by
  induction l generalizing cs with
  | nil => exact absurd hcount (by simp)
  | cons e rest ih =>
    simp only [List.foldl_cons]
    by_cases hej : e.2 = j
    · have hrest0 : (rest.map Prod.snd).count j = 0 := by
        have h1 := hcount
        rw [List.map_cons, List.count_cons, if_pos (by simp [hej])] at h1
        omega
      have hnot : j ∉ rest.map Prod.snd := List.count_eq_zero.mp hrest0
      have hbr : ∀ e2 ∈ rest, (getC (redundantOne cs e.2) e2.2).buddy = none := by
        intro e2 he2
        rw [redundantOne_buddy]
        exact hbuddy e2 (List.mem_cons_of_mem _ he2)
      have hbj : (getC cs j).buddy = none := by
        rw [← hej]
        exact hbuddy e (List.mem_cons_self _ _)
      rw [fold_red_frame rest (redundantOne cs e.2) j hnot hbr, hej]
      exact redundantOne_getC_self cs j hbj hp
    · have hne : j ≠ e.2 := fun h => hej h.symm
      have hcr : (rest.map Prod.snd).count j = 1 := by
        have h1 := hcount
        rw [List.map_cons, List.count_cons, if_neg (by simp [hej])] at h1
        omega
      have hbr : ∀ e2 ∈ rest, (getC (redundantOne cs e.2) e2.2).buddy = none := by
        intro e2 he2
        rw [redundantOne_buddy]
        exact hbuddy e2 (List.mem_cons_of_mem _ he2)
      rw [ih (redundantOne cs e.2) hcr hbr (redundantOne_presence _ _ _ hp),
          redundantOne_getC_ne cs e.2 j (hbuddy e (List.mem_cons_self _ _)) hne]

/-- The Go swap-and-trim idiom `l[i] = l[len-1]; l = l[:len-1]` produces a
permutation of the list with index `i` erased. -/
theorem swapTake_perm (l : List (String × Nat)) (d : String × Nat) (i : Nat)
    (hi : i < l.length) :
    List.Perm ((l.set i (l.getLastD d)).take (l.length - 1)) (l.eraseIdx i) := by
  induction l generalizing d i with
  | nil => simp at hi
  | cons a t ih =>
    cases i with
    | zero =>
      by_cases ht : t = []
      · subst ht
        simp
      · have hlt : 0 < t.length := List.length_pos.mpr ht
        have hlast : (a :: t).getLastD d = t.getLast ht := by
          rw [List.getLastD_cons, List.getLastD_eq_getLast?,
              List.getLast?_eq_getLast t ht, Option.getD_some]
        rw [hlast, List.set_cons_zero, List.eraseIdx_cons_zero,
            show (a :: t).length - 1 = (t.length - 1) + 1 from by
              simp only [List.length_cons]; omega,
            List.take_succ_cons, ← List.dropLast_eq_take]
        conv_rhs => rw [← List.dropLast_append_getLast ht]
        exact (List.perm_append_singleton _ _).symm
    | succ i2 =>
      have hi2 : i2 < t.length := by
        simp only [List.length_cons] at hi
        omega
      have ht : t ≠ [] := by
        intro h
        rw [h] at hi2
        simp at hi2
      rw [List.getLastD_cons, List.set_cons_succ, List.eraseIdx_cons_succ,
          show (a :: t).length - 1 = (t.length - 1) + 1 from by
            simp only [List.length_cons]
            have := List.length_pos.mpr ht
            omega,
          List.take_succ_cons]
      exact List.Perm.cons a (ih a i2 hi2)

/-- Every non-matched candidate id occurs exactly once in the trimmed
slice the redundant loop walks. -/
theorem trimmed_count_one (l : List (String × Nat)) (i k j : Nat) (sideK : String)
    (hi : i < l.length) (hk : l[k]? = some (sideK, j)) (hki : k ≠ i)
    (hnodup : (l.map Prod.snd).Nodup) :
    ((((l.set i (l.getLastD ("", 0))).take (l.length - 1)).map Prod.snd).count j) = 1 := by
  have hpm := (swapTake_perm l ("", 0) i hi).map Prod.snd
  rw [hpm.count_eq]
  have hmem : (sideK, j) ∈ l.eraseIdx i :=
    List.mem_eraseIdx_iff_getElem?.mpr ⟨k, hki, hk⟩
  have hjm : j ∈ (l.eraseIdx i).map Prod.snd := List.mem_map.mpr ⟨(sideK, j), hmem, rfl⟩
  have hle : ((l.eraseIdx i).map Prod.snd).count j ≤ 1 := by
    have hsub := List.Sublist.map Prod.snd (List.eraseIdx_sublist l i)
    exact le_trans (hsub.count_le j) (List.nodup_iff_count_le_one.mp hnodup j)
  have hge : 0 < ((l.eraseIdx i).map Prod.snd).count j := List.count_pos_iff.mpr hjm
  omega

/-- Members of the trimmed slice were candidates in the original list. -/
theorem trimmed_subset (l : List (String × Nat)) (i : Nat) (hi : i < l.length)
    (e : String × Nat) (he : e ∈ (l.set i (l.getLastD ("", 0))).take (l.length - 1)) :
    e ∈ l :=
  (List.eraseIdx_sublist l i).subset ((swapTake_perm l ("", 0) i hi).mem_iff.mp he)

/-- C6 (amended): when `processToken` pairs the caller with a match, every
other candidate that was waiting under the token — any entry of
`pending[token]` other than the matched slot and the matched client — with
an open connection gets exactly the bytes `redundent` (the source's literal
misspelling, no trailing newline) written to it and its connection closed. -/
theorem c6_amended (ts : TransitState) (selfId : Nat) (token side : String)
    (potentials : List (String × Nat)) (i k j : Nat) (sideK : String)
    (hpend : lookupPending ts.pending token = some potentials)
    (hidx : potentials.findIdx? (fun ex => matchCond ex.1 side) = some i)
    (hk : potentials[k]? = some (sideK, j))
    (hki : k ≠ i)
    (hmatch : j ≠ (potentials.getLastD ("", 0)).2)
    (hnodup : (potentials.map Prod.snd).Nodup)
    (hself : j ≠ selfId)
    (hbuddy : ∀ e ∈ potentials, (getC ts.clients e.2).buddy = none)
    (hopen : (getC ts.clients j).connOpen = true)
    (hj : ∃ p ∈ ts.clients, p.1 = j) :
    (getC (ts.processToken selfId token side).clients j).wrote
        = (getC ts.clients j).wrote ++ ["redundent"] ∧
      (getC (ts.processToken selfId token side).clients j).connOpen = false := by
  have hi : i < potentials.length :=
    (List.findIdx?_eq_some_iff_findIdx_eq.mp hidx).1
  have hM : (potentials.set i (potentials.getLastD ("", 0))).getD i ("", 0)
      = potentials.getLastD ("", 0) := by
    rw [List.getD_eq_getElem?_getD, List.getElem?_set]
    simp [hi]
  have hcs0j : getC (updC ts.clients selfId (fun c =>
      { c with token := token, side := side, mood := "lonely", gotToken := true })) j
      = getC ts.clients j := getC_updC_ne _ _ _ _ hself
  have hfold := fold_red_once
    ((potentials.set i (potentials.getLastD ("", 0))).take (potentials.length - 1))
    (updC ts.clients selfId (fun c =>
      { c with token := token, side := side, mood := "lonely", gotToken := true })) j
    (trimmed_count_one potentials i k j sideK hi hk hki hnodup)
    (fun e he => by
      rw [getC_updC_buddy ts.clients selfId e.2 (fun c =>
        { c with token := token, side := side, mood := "lonely", gotToken := true })
        (fun c => rfl)]
      exact hbuddy e (trimmed_subset potentials i hi e he))
    (presence_updC _ _ _ _ hj)
  have hkey : getC (ts.processToken selfId token side).clients j
      = redundantPure (getC ts.clients j) := by
    simp only [TransitState.processToken, hpend, hidx]
    rw [hM]
    simp only [connectWithF]
    rw [getC_updC_ne _ _ _ _ hself, getC_updC_ne _ _ _ _ hmatch, hfold, hcs0j]
  rw [hkey]
  unfold redundantPure
  rw [if_pos hopen]
  exact ⟨rfl, rfl⟩

/-- The concrete transit state for the amended-C6 witness: three open
clients, two of them pending under `tok` with sides `a` and `b`. -/
def stC6 : TransitState :=
  { clients := [(1, TClient.fresh), (2, TClient.fresh), (3, TClient.fresh)],
    pending := [("tok", [("a", 1), ("b", 2)])] }

theorem c6_amended_witness :
    (getC (stC6.processToken 3 "tok" "a").clients 1).wrote
        = (getC stC6.clients 1).wrote ++ ["redundent"] ∧
      (getC (stC6.processToken 3 "tok" "a").clients 1).connOpen = false :=
  c6_amended stC6 3 "tok" "a" [("a", 1), ("b", 2)] 1 0 1 "a"
    (by decide) (by decide) (by decide) (by decide) (by decide)
    (by decide) (by decide) (by decide) (by decide) (by decide)

end Wormhole
